import Mathlib

/-!
Verification development for the file-intake / type-detection pipeline of
apps/frontend/src/store/report_intake.ts (heimdall2 excerpt).

Modelling conventions:
* A parsed JSON value is the inductive `Json` below; numbers are modelled as
  integers (no claim in scope depends on non-integral numbers or NaN).
* `JSON.parse` is a host builtin; its result is passed explicitly: a raw
  input is a pair of the original text and `Option Json` (`none` = the parse
  threw).  Concrete witnesses supply text/parse pairs that agree with real
  JSON parsing.
* Lodash `_.get` paths such as "FVDL.EngineData.EngineVersion" and
  "vulnerabilities[0].identifiers" are carried in already-parsed form as
  `List PathKey` (lodash tokenises exactly this way).
* External collaborators (the per-format mapper classes, inspecjs
  `convertFile`, `uuid`, the Vuex data/filter stores, the snackbar) are
  modelled as explicit parameters or as recorded effects; `uuid()` is
  modelled as a fresh identifier drawn from a counter, which preserves the
  only property used here (freshness).
* JavaScript exceptions are modelled with `Except String`.
-/

/-- Parsed JSON values. -/
inductive Json where
  | null
  | bool (b : Bool)
  | num (n : Int)
  | str (s : String)
  | arr (elems : List Json)
  | obj (fields : List (String × Json))

/-- JavaScript truthiness of a JSON value (`Boolean(v)`): null, false, 0 and
the empty string are falsy; every object and array is truthy. -/
def truthy : Json → Bool
  | .null => false
  | .bool b => b
  | .num n => n != 0
  | .str s => s != ""
  | .arr _ => true
  | .obj _ => true

/-- Truthiness of a possibly-undefined value (`undefined` is falsy). -/
def truthyOpt : Option Json → Bool
  | none => false
  | some j => truthy j

/-- One tokenised component of a lodash property path. -/
inductive PathKey where
  | key (s : String)
  | idx (n : Nat)
deriving DecidableEq

/-- First binding of a key in a JSON object's field list. -/
def objGet (fs : List (String × Json)) (k : String) : Option Json :=
  match fs.find? (fun e => e.1 == k) with
  | some e => some e.2
  | none => none

/-- Safe nested lookup along a tokenised path, recursing on the path. -/
def lodashGetAux : List PathKey → Json → Option Json
  | [], j => some j
  | .key k :: rest, .obj fs =>
    match objGet fs k with
    | some v => lodashGetAux rest v
    | none => none
  | .idx n :: rest, .arr xs =>
    match xs.get? n with
    | some v => lodashGetAux rest v
    | none => none
  | _ :: _, _ => none

/-- Model of lodash `_.get(obj, path)`: resolves a tokenised property path,
yielding `none` (undefined) instead of an error when any step is missing. -/
def lodashGet (j : Json) (p : List PathKey) : Option Json :=
  lodashGetAux p j

/-- Fingerprint paths of the "fortify" entry of `fileTypeFingerprints`. -/
def fortifyPaths : List (List PathKey) :=
  [[.key "FVDL"],
   [.key "FVDL", .key "EngineData", .key "EngineVersion"],
   [.key "FVDL", .key "UUID"]]

/-- Fingerprint paths of the "jfrog" entry. -/
def jfrogPaths : List (List PathKey) :=
  [[.key "total_count"], [.key "data"]]

/-- Fingerprint paths of the "nikto" entry. -/
def niktoPaths : List (List PathKey) :=
  [[.key "banner"], [.key "host"], [.key "ip"], [.key "port"],
   [.key "vulnerabilities"]]

/-- Fingerprint paths of the "sarif" entry. -/
def sarifPaths : List (List PathKey) :=
  [[.key "$schema"], [.key "version"], [.key "runs"]]

/-- Fingerprint paths of the "snyk" entry. -/
def snykPaths : List (List PathKey) :=
  [[.key "projectName"], [.key "policy"], [.key "summary"],
   [.key "vulnerabilities"],
   [.key "vulnerabilities", .idx 0, .key "identifiers"]]

/-- Fingerprint paths of the "zap" entry. -/
def zapPaths : List (List PathKey) :=
  [[.key "@generated"], [.key "@version"], [.key "site"]]

/-- The fingerprint table, in `Object.entries` iteration order (insertion
order of the object literal in the source). -/
def fileTypeFingerprints : List (String × List (List PathKey)) :=
  [("fortify", fortifyPaths),
   ("jfrog", jfrogPaths),
   ("nikto", niktoPaths),
   ("sarif", sarifPaths),
   ("snyk", snykPaths),
   ("zap", zapPaths)]

/-- Number of fingerprint paths of an entry whose resolved value is truthy:
the source filters with `(value) => _.get(parsedJSON, value)`, so a path
counts exactly when its value is truthy (not merely defined). -/
def matchCount (parsed : Json) (paths : List (List PathKey)) : Nat :=
  (paths.filter (fun p => truthyOpt (lodashGet parsed p))).length

/-- The reducer of `guessType`: `a[1].filter(...).length > b[1].filter(...).length ? a : b`.
On a strictly greater count the accumulator `a` is kept; otherwise (including
ties) the later entry `b` replaces it. -/
def pickFingerprint (parsed : Json) (a b : String × List (List PathKey)) :
    String × List (List PathKey) :=
  if matchCount parsed a.2 > matchCount parsed b.2 then a else b

/-- Model of `guessType`: `Object.entries(fileTypeFingerprints).reduce(...)`
with no initial value, i.e. a fold over the tail with the head as seed,
returning the winning entry's name.  The empty-table branch is dead code
(the table is statically non-empty; JS `reduce` would throw there). -/
def guessType (parsed : Json) : String :=
  match fileTypeFingerprints with
  | [] => ""
  | first :: rest => (rest.foldl (pickFingerprint parsed) first).1

/-- JavaScript property access `v.k` used by `isHDF`: reading a property of
`null` throws a TypeError (modelled as `.error`); on any other non-object it
yields undefined; on an object it is a field lookup. -/
def jsProp : Json → String → Except String (Option Json)
  | .null, _ => .error "TypeError"
  | .obj fs, k => .ok (objGet fs k)
  | _, _ => .ok none

/-- Whether a possibly-undefined value is an array (`Array.isArray`). -/
def isArrayOpt : Option Json → Bool
  | some (.arr _) => true
  | _ => false

/-- The body of `isHDF`'s `try` block on a successfully parsed value, with
JavaScript short-circuit evaluation order:
`Array.isArray(parsed.profiles) || (Boolean(parsed.controls) && Boolean(parsed.sha256))`. -/
def isHDFBody (parsed : Json) : Except String Bool := do
  let profiles ← jsProp parsed "profiles"
  if isArrayOpt profiles then
    pure true
  else
    let controls ← jsProp parsed "controls"
    if truthyOpt controls then
      let sha ← jsProp parsed "sha256"
      pure (truthyOpt sha)
    else
      pure false

/-- Model of `isHDF`: the argument is the result of `JSON.parse` on the raw
text (`none` = the parse threw).  Any exception inside the `try` — a parse
failure or a property access on `null` — is caught and yields `false`. -/
def isHDF (input : Option Json) : Bool :=
  match input with
  | none => false
  | some parsed =>
    match isHDFBody parsed with
    | .ok b => b
    | .error _ => false

/-- Total safe field access used to state the specification-side
characterisation of `isHDF` (no exceptions: `none` for any non-object). -/
def safeProp (j : Json) (k : String) : Option Json :=
  match j with
  | .obj fs => objGet fs k
  | _ => none

/-- First index at which `pat` occurs in `s` starting from offset `i`
(`List.isPrefixOf` at each successive suffix). -/
def jsIndexOfAux (pat : List Char) : List Char → Nat → Option Nat
  | [], i => if pat.isPrefixOf ([] : List Char) then some i else none
  | c :: rest, i =>
    if pat.isPrefixOf (c :: rest) then some i else jsIndexOfAux pat rest (i + 1)

/-- Model of JavaScript `s.indexOf(pat)`: `some i` is the first occurrence
index, `none` plays the role of `-1` (not found). -/
def jsIndexOf (s pat : String) : Option Nat :=
  jsIndexOfAux pat.toList s.toList 0

/-- Containment check `s.indexOf(pat) !== -1`. -/
def strContains (s pat : String) : Bool :=
  (jsIndexOf s pat).isSome

/-- Truthiness of the number `s.indexOf(pat)`: `-1` (absent) and every
positive index are truthy; only index `0` is falsy. -/
def indexOfTruthy (s pat : String) : Bool :=
  jsIndexOf s pat != some 0

/-- Model of `s.toLowerCase()` (ASCII case folding suffices for the
substrings compared here). -/
def lowerStr (s : String) : String :=
  ⟨s.toList.map Char.toLower⟩

/-- Model of `s.endsWith(pat)`. -/
def jsEndsWith (s pat : String) : Bool :=
  pat.toList.isSuffixOf s.toList

/-- The transformers the dispatcher can route to. -/
inductive Route where
  | jfrog | zap | nikto | sarif | snyk
  | nessus | xccdf | burp | scoutsuite | dbprotect | netsparker
deriving DecidableEq, Repr

/-- A raw upload: the text together with the result of `JSON.parse` on it
(`none` = the parse threw).  The parse is a host builtin, so its result is
supplied alongside the text; witnesses use pairs consistent with JSON. -/
structure RawInput where
  text : String
  parsed : Option Json

/-- The schemaLocation marker tested for XCCDF results. -/
def xccdfMarker : String := "schemaLocation=\"http://checklists.nist.gov/xccdf"

/-- Which transformer the JSON branch of `convertToHdf` picks from the type
guess: only five of the six fingerprinted formats are dispatched; any other
guess (including "fortify") falls through with no transformer. -/
def jsonRoute (parsed : Json) : Option Route :=
  let typeGuess := guessType parsed
  if typeGuess = "jfrog" then some .jfrog
  else if typeGuess = "zap" then some .zap
  else if typeGuess = "nikto" then some .nikto
  else if typeGuess = "sarif" then some .sarif
  else if typeGuess = "snyk" then some .snyk
  else none

/-- Which transformer the heuristic fallback (the `catch` block of
`convertToHdf`) picks, following the source's branch order.  Note the two
bare `indexOf` truthiness tests taken verbatim from the source: the fourth
DBProtect conjunct and the Netsparker test lack `!== -1`, so for them the
absent-substring result `-1` counts as a match. -/
def heuristicRoute (filename text : String) : Option Route :=
  if jsEndsWith (lowerStr filename) ".nessus" then some .nessus
  else if strContains text xccdfMarker
      || strContains (lowerStr filename) "xccdf" then some .xccdf
  else if strContains text "issues burpVersion" then some .burp
  else if strContains text "scoutsuite_results" then some .scoutsuite
  else if strContains text "Policy" && strContains text "Job Name"
      && strContains text "Check ID"
      && indexOfTruthy text "Result Status" then some .dbprotect
  else if indexOfTruthy text "netsparker-enterprise" then some .netsparker
  else none

/-- Abstract output of a mapper's `toHdf()`: one execution or an array of
executions (payloads abstracted to identifiers). -/
inductive MapperOut where
  | one (e : Nat)
  | many (es : List Nat)
deriving DecidableEq, Repr

/-- The observable outcome of `convertToHdf`: the value it returns
(`none` = `undefined`, i.e. the snackbar-failure return) together with the
failure messages emitted to the snackbar collaborator. -/
structure Outcome where
  result : Option MapperOut
  notifications : List String
deriving DecidableEq, Repr

/-- The single failure message of the dispatcher. -/
def noFingerprintMsg : String := "Invalid file uploaded, no fingerprints matched."

/-- The `try` block of `convertToHdf`: parse (throwing if the parse fails),
guess, and invoke the matching mapper; a guess outside the five dispatched
formats falls off the end of the block (`.ok none`).  A mapper throw is an
exception raised inside the `try`. -/
def tryPath (input : RawInput) (mappers : Route → Except String MapperOut) :
    Except String (Option MapperOut) :=
  match input.parsed with
  | none => .error "SyntaxError"
  | some parsed =>
    match jsonRoute parsed with
    | some r => (mappers r).map some
    | none => .ok none

/-- The `catch` block of `convertToHdf`: the heuristic fallback; a mapper
throw here propagates, and exhausting the branches falls off the end. -/
def catchPath (filename text : String)
    (mappers : Route → Except String MapperOut) :
    Except String (Option MapperOut) :=
  match heuristicRoute filename text with
  | some r => (mappers r).map some
  | none => .ok none

/-- Wrap the value produced by the try/catch of `convertToHdf`: a returned
mapper result is passed through; falling off the end of either block reaches
the final `SnackbarModule.failure(...)` statement, which notifies once and
returns `undefined`. -/
def finalizeConvert (attempt : Except String (Option MapperOut)) :
    Except String Outcome :=
  match attempt with
  | .ok (some r) => .ok { result := some r, notifications := [] }
  | .ok none => .ok { result := none, notifications := [noFingerprintMsg] }
  | .error e => .error e

/-- Model of `convertToHdf`: any exception in the `try` block (parse failure
or a thrown JSON-path mapper) transfers control to the `catch` block;
exceptions in the `catch` block propagate to the caller. -/
def convertToHdf (filename : String) (input : RawInput)
    (mappers : Route → Except String MapperOut) : Except String Outcome :=
  match tryPath input mappers with
  | .ok v => finalizeConvert (.ok v)
  | .error _ => finalizeConvert (catchPath filename input.text mappers)

/-- State of the registration/selection collaborators, plus the counter
standing in for `uuid()` (only freshness of identifiers matters).
Registered executions/profiles pair the minted identifier with the abstract
normalized payload; the selection stores record the toggled identifiers. -/
structure StoreState where
  nextId : Nat
  executions : List (Nat × Nat)
  profiles : List (Nat × Nat)
  selectedExecutions : List Nat
  selectedProfiles : List Nat

/-- Result of the external inspecjs `convertFile` call used by `loadText`:
the `1_0_ExecJson` and `1_0_ProfileJson` fields (payloads abstracted),
`none` meaning absent/falsy. -/
structure ConversionResult where
  execJson : Option Nat
  profileJson : Option Nat

/-- The user-facing error thrown by `loadText` when the parsed text is
neither an execution nor a profile. -/
def parseErrorMsg : String :=
  "Couldn\x27t parse data. See developer\x27s tools for more details."

/-- Model of `loadText`: mint an identifier, then register an execution, or
a profile, or throw; the state component records that on the throwing branch
nothing is registered or selected (state returned unchanged). -/
def loadText (conv : ConversionResult) (st : StoreState) :
    Except String Nat × StoreState :=
  let fileID := st.nextId
  match conv.execJson with
  | some e =>
    (.ok fileID,
     { st with
        nextId := st.nextId + 1,
        executions := st.executions ++ [(fileID, e)],
        selectedExecutions := st.selectedExecutions ++ [fileID] })
  | none =>
    match conv.profileJson with
    | some p =>
      (.ok fileID,
       { st with
          nextId := st.nextId + 1,
          profiles := st.profiles ++ [(fileID, p)],
          selectedProfiles := st.selectedProfiles ++ [fileID] })
    | none => (.error parseErrorMsg, st)

/-- Model of `loadExecJson`: always registers an execution and toggles it
selected, returning the fresh identifier. -/
def loadExecJson (data : Nat) (st : StoreState) : Nat × StoreState :=
  (st.nextId,
   { st with
      nextId := st.nextId + 1,
      executions := st.executions ++ [(st.nextId, data)],
      selectedExecutions := st.selectedExecutions ++ [st.nextId] })

/-- Model of `loadFile`: route to `loadText` when `isHDF` accepts the text,
otherwise convert; an array result loads every execution, a single truthy
result loads one, and `undefined` (no fingerprint matched) yields `[]`.
`conv` is the external `convertFile` result consumed on the `loadText`
branch. -/
def loadFile (filename : String) (input : RawInput)
    (mappers : Route → Except String MapperOut) (conv : ConversionResult)
    (st : StoreState) : Except String (List Nat) × StoreState :=
  if isHDF input.parsed then
    match loadText conv st with
    | (.ok fileId, st2) => (.ok [fileId], st2)
    | (.error e, st2) => (.error e, st2)
  else
    match convertToHdf filename input mappers with
    | .error e => (.error e, st)
    | .ok converted =>
      match converted.result with
      | some (.many es) =>
        let finish := es.foldl
          (fun (acc : List Nat × StoreState) e =>
            let step := loadExecJson e acc.2
            (acc.1 ++ [step.1], step.2))
          ([], st)
        (.ok finish.1, finish.2)
      | some (.one e) =>
        let step := loadExecJson e st
        (.ok [step.1], step.2)
      | none => (.ok [], st)

/-- Entry of the fingerprint table at a position, for stating order-aware
properties of `guessType` (`Fin 6` because the table has six entries). -/
def fpEntry (i : Fin 6) : String × List (List PathKey) :=
  match i with
  | ⟨0, _⟩ => ("fortify", fortifyPaths)
  | ⟨1, _⟩ => ("jfrog", jfrogPaths)
  | ⟨2, _⟩ => ("nikto", niktoPaths)
  | ⟨3, _⟩ => ("sarif", sarifPaths)
  | ⟨4, _⟩ => ("snyk", snykPaths)
  | ⟨5, _⟩ => ("zap", zapPaths)

/-- Name of the table entry at a position. -/
def fpName (i : Fin 6) : String := (fpEntry i).1

/-- Fingerprint paths of the table entry at a position. -/
def fpPaths (i : Fin 6) : List (List PathKey) := (fpEntry i).2

/-- Count of fingerprint paths of the table's `i`-th entry whose value in
`parsed` is truthy. -/
def fpCount (parsed : Json) (i : Fin 6) : Nat := matchCount parsed (fpPaths i)

/-- Count of fingerprint paths whose value is merely defined (non-undefined).
Modelled from the spec: the spec's Type Guesser contract counts "resolvable
(non-undefined) values", which differs from the source's truthiness filter;
this definition exists only to state that contract for comparison. -/
def definedCount (parsed : Json) (paths : List (List PathKey)) : Nat :=
  (paths.filter (fun p => (lodashGet parsed p).isSome)).length

/-- JavaScript runtime values stored in object fields for the object-level
model of `loadText` / `loadExecJson`: primitives, references to other heap
objects, and `undefined`. -/
inductive JsVal where
  | vnum (n : Nat)
  | vstr (s : String)
  | vref (a : Nat)
  | vundef
deriving DecidableEq, Repr

/-- A heap object: its own properties plus its `Object.freeze` status. -/
structure JsObject where
  frozen : Bool
  fields : List (String × JsVal)
deriving DecidableEq, Repr

/-- A heap of JavaScript objects addressed by `Nat`; fresh addresses come
from the counter and are prepended, so lookup always sees the newest
binding of an address first. -/
structure Heap where
  objects : List (Nat × JsObject)
  nextAddr : Nat
deriving DecidableEq, Repr

/-- Object stored at an address. -/
def Heap.getObj (h : Heap) (a : Nat) : Option JsObject :=
  (h.objects.find? (fun e => e.1 == a)).map (fun e => e.2)

/-- Replace the object stored at an address. -/
def Heap.putObj (h : Heap) (a : Nat) (o : JsObject) : Heap :=
  { h with objects := h.objects.map (fun e => if e.1 == a then (a, o) else e) }

/-- Allocate a fresh object. -/
def Heap.alloc (h : Heap) (o : JsObject) : Nat × Heap :=
  (h.nextAddr, { objects := (h.nextAddr, o) :: h.objects, nextAddr := h.nextAddr + 1 })

/-- Set a key in an association list, replacing the first binding. -/
def setAssoc : List (String × JsVal) → String → JsVal → List (String × JsVal)
  | [], k, v => [(k, v)]
  | (k0, v0) :: rest, k, v =>
    if k0 == k then (k, v) :: rest else (k0, v0) :: setAssoc rest k v

/-- JavaScript property assignment `target.k = v`: a write to a frozen
object does not change it (it is a no-op in sloppy mode and throws in strict
mode; either way the heap is unchanged, which is the observable this model
keeps). -/
def setField (h : Heap) (a : Nat) (k : String) (v : JsVal) : Heap :=
  match h.getObj a with
  | none => h
  | some o =>
    if o.frozen then h else h.putObj a { o with fields := setAssoc o.fields k v }

/-- `Object.freeze(target)`: mark the object itself frozen (shallow). -/
def freezeObj (h : Heap) (a : Nat) : Heap :=
  match h.getObj a with
  | none => h
  | some o => h.putObj a { o with frozen := true }

/-- Object-level application state: the heap plus the registration and
selection collaborators, which hold object addresses / identifiers (the
store keeps references, not copies). -/
structure AppState where
  heap : Heap
  nextUuid : Nat
  executions : List Nat
  profiles : List Nat
  selectedExecutions : List Nat
  selectedProfiles : List Nat

/-- Object-level model of the execution branch shared by `loadText` and
`loadExecJson`: build the wrapper (`evalFile`), build the contextualized
evaluation (external collaborator output, modelled as a fresh object holding
the abstract payload), back-link `evaluation.from_file`, set
`evalFile.evaluation`, freeze the evaluation, register the wrapper and
toggle it selected — in exactly the source's statement order. -/
def ingestExecution (filename : String) (payload : Nat) (s : AppState) :
    Nat × AppState :=
  let fileID := s.nextUuid
  let a1 := s.heap.alloc
    { frozen := false,
      fields := [("uniqueId", .vnum fileID), ("filename", .vstr filename)] }
  let evalFileAddr := a1.1
  let a2 := a1.2.alloc { frozen := false, fields := [("data", .vnum payload)] }
  let evalAddr := a2.1
  let h3 := setField a2.2 evalAddr "from_file" (.vref evalFileAddr)
  let h4 := setField h3 evalFileAddr "evaluation" (.vref evalAddr)
  let h5 := freezeObj h4 evalAddr
  (fileID,
   { s with
      heap := h5,
      nextUuid := s.nextUuid + 1,
      executions := s.executions ++ [evalFileAddr],
      selectedExecutions := s.selectedExecutions ++ [fileID] })

/-- Object-level model of the profile branch of `loadText`: same shape with
`profile` / `addProfile` / `toggle_profile`. -/
def ingestProfile (filename : String) (payload : Nat) (s : AppState) :
    Nat × AppState :=
  let fileID := s.nextUuid
  let a1 := s.heap.alloc
    { frozen := false,
      fields := [("uniqueId", .vnum fileID), ("filename", .vstr filename)] }
  let profileFileAddr := a1.1
  let a2 := a1.2.alloc { frozen := false, fields := [("data", .vnum payload)] }
  let profileAddr := a2.1
  let h3 := setField a2.2 profileAddr "from_file" (.vref profileFileAddr)
  let h4 := setField h3 profileFileAddr "profile" (.vref profileAddr)
  let h5 := freezeObj h4 profileAddr
  (fileID,
   { s with
      heap := h5,
      nextUuid := s.nextUuid + 1,
      profiles := s.profiles ++ [profileFileAddr],
      selectedProfiles := s.selectedProfiles ++ [fileID] })

/-- Object-level model of `loadText` (`loadExecJson` is `ingestExecution`
applied directly to the caller's execution object). -/
def loadTextHeap (filename : String) (conv : ConversionResult) (s : AppState) :
    Except String Nat × AppState :=
  match conv.execJson with
  | some e =>
    let r := ingestExecution filename e s
    (.ok r.1, r.2)
  | none =>
    match conv.profileJson with
    | some p =>
      let r := ingestProfile filename p s
      (.ok r.1, r.2)
    | none => (.error parseErrorMsg, s)

/-- Numeric tag of a transformer, used to build mapper families whose
outputs identify which transformer produced them. -/
def routeNat : Route → Nat
  | .jfrog => 0
  | .zap => 1
  | .nikto => 2
  | .sarif => 3
  | .snyk => 4
  | .nessus => 5
  | .xccdf => 6
  | .burp => 7
  | .scoutsuite => 8
  | .dbprotect => 9
  | .netsparker => 10

/-- A mapper family where every transformer succeeds with a tagged single
execution. -/
def tagMappers : Route → Except String MapperOut :=
  fun r => .ok (.one (routeNat r))

/-- A mapper family where the JfrogXray mapper throws and every other
transformer succeeds. -/
def jfrogErrMappers : Route → Except String MapperOut :=
  fun r => if r = .jfrog then .error "jfrog mapper failed" else .ok (.one (routeNat r))

/-- A mapper family where the Nessus mapper throws and every other
transformer succeeds. -/
def nessusErrMappers : Route → Except String MapperOut :=
  fun r => if r = .nessus then .error "nessus mapper failed" else .ok (.one (routeNat r))

/-- An empty registration/selection state. -/
def st0 : StoreState := ⟨0, [], [], [], []⟩

/-- A document whose jfrog fingerprint values are defined but falsy while
one nikto fingerprint value is truthy; JSON text
`\x7b"total_count":0,"data":0,"banner":"x"\x7d`. -/
def c1CexDoc : Json :=
  .obj [("total_count", .num 0), ("data", .num 0), ("banner", .str "x")]

/-- A document resolving all 3 fortify paths truthily and exactly 1 of the
5 snyk paths. -/
def fortifyDoc : Json :=
  .obj [("FVDL", .obj [("EngineData", .obj [("EngineVersion", .str "22")]),
                       ("UUID", .str "u")]),
        ("projectName", .str "p")]

/-- A document where jfrog and nikto each match exactly one fingerprint and
every other format matches none. -/
def tieDoc : Json := .obj [("total_count", .num 1), ("banner", .str "b")]

/-- A document containing both `controls` and `sha256` properties, with a
falsy `controls` value. -/
def hdfCexDoc : Json := .obj [("controls", .num 0), ("sha256", .str "x")]

/-- Raw input whose text parses to a document winning the jfrog guess. -/
def jfrogInput : RawInput :=
  { text := "\x7b\"total_count\":1,\"data\":[1]\x7d",
    parsed := some (.obj [("total_count", .num 1), ("data", .arr [.num 1])]) }

/-- A document with a single truthy fortify fingerprint and none of any
other format, so "fortify" wins the guess. -/
def fortifyDoc2 : Json := .obj [("FVDL", .str "v")]

/-- Raw input whose text parses to `fortifyDoc2`. -/
def fortifyInput : RawInput :=
  { text := "\x7b\"FVDL\":\"v\"\x7d", parsed := some fortifyDoc2 }

/-- The reduction inside `guessType` keeps the accumulator only on a
strictly greater match count, so the fold settles on the last table entry
attaining the maximal count: if every entry before position `i` counts at
most as much and every entry after counts strictly less, the guess is the
name at `i`. -/
theorem guessType_eq_of_lastMax (parsed : Json) (i : Fin 6)
    (hle : ∀ j : Fin 6, j < i → fpCount parsed j ≤ fpCount parsed i)
    (hlt : ∀ j : Fin 6, i < j → fpCount parsed j < fpCount parsed i) :
    guessType parsed = fpName i := by
  obtain ⟨v, hv⟩ := i
  interval_cases v
  · have g1 := hlt ⟨1, by omega⟩ (Fin.mk_lt_mk.mpr (by omega))
    have g2 := hlt ⟨2, by omega⟩ (Fin.mk_lt_mk.mpr (by omega))
    have g3 := hlt ⟨3, by omega⟩ (Fin.mk_lt_mk.mpr (by omega))
    have g4 := hlt ⟨4, by omega⟩ (Fin.mk_lt_mk.mpr (by omega))
    have g5 := hlt ⟨5, by omega⟩ (Fin.mk_lt_mk.mpr (by omega))
    simp only [fpCount, fpPaths, fpEntry] at g1 g2 g3 g4 g5
    simp only [guessType, fileTypeFingerprints, List.foldl, pickFingerprint, fpName, fpEntry]
    split_ifs <;> first | rfl | (dsimp only at *; omega) | omega
  · have f0 := hle ⟨0, by omega⟩ (Fin.mk_lt_mk.mpr (by omega))
    have g2 := hlt ⟨2, by omega⟩ (Fin.mk_lt_mk.mpr (by omega))
    have g3 := hlt ⟨3, by omega⟩ (Fin.mk_lt_mk.mpr (by omega))
    have g4 := hlt ⟨4, by omega⟩ (Fin.mk_lt_mk.mpr (by omega))
    have g5 := hlt ⟨5, by omega⟩ (Fin.mk_lt_mk.mpr (by omega))
    simp only [fpCount, fpPaths, fpEntry] at f0 g2 g3 g4 g5
    simp only [guessType, fileTypeFingerprints, List.foldl, pickFingerprint, fpName, fpEntry]
    split_ifs <;> first | rfl | (dsimp only at *; omega) | omega
  · have f0 := hle ⟨0, by omega⟩ (Fin.mk_lt_mk.mpr (by omega))
    have f1 := hle ⟨1, by omega⟩ (Fin.mk_lt_mk.mpr (by omega))
    have g3 := hlt ⟨3, by omega⟩ (Fin.mk_lt_mk.mpr (by omega))
    have g4 := hlt ⟨4, by omega⟩ (Fin.mk_lt_mk.mpr (by omega))
    have g5 := hlt ⟨5, by omega⟩ (Fin.mk_lt_mk.mpr (by omega))
    simp only [fpCount, fpPaths, fpEntry] at f0 f1 g3 g4 g5
    simp only [guessType, fileTypeFingerprints, List.foldl, pickFingerprint, fpName, fpEntry]
    split_ifs <;> first | rfl | (dsimp only at *; omega) | omega
  · have f0 := hle ⟨0, by omega⟩ (Fin.mk_lt_mk.mpr (by omega))
    have f1 := hle ⟨1, by omega⟩ (Fin.mk_lt_mk.mpr (by omega))
    have f2 := hle ⟨2, by omega⟩ (Fin.mk_lt_mk.mpr (by omega))
    have g4 := hlt ⟨4, by omega⟩ (Fin.mk_lt_mk.mpr (by omega))
    have g5 := hlt ⟨5, by omega⟩ (Fin.mk_lt_mk.mpr (by omega))
    simp only [fpCount, fpPaths, fpEntry] at f0 f1 f2 g4 g5
    simp only [guessType, fileTypeFingerprints, List.foldl, pickFingerprint, fpName, fpEntry]
    split_ifs <;> first | rfl | (dsimp only at *; omega) | omega
  · have f0 := hle ⟨0, by omega⟩ (Fin.mk_lt_mk.mpr (by omega))
    have f1 := hle ⟨1, by omega⟩ (Fin.mk_lt_mk.mpr (by omega))
    have f2 := hle ⟨2, by omega⟩ (Fin.mk_lt_mk.mpr (by omega))
    have f3 := hle ⟨3, by omega⟩ (Fin.mk_lt_mk.mpr (by omega))
    have g5 := hlt ⟨5, by omega⟩ (Fin.mk_lt_mk.mpr (by omega))
    simp only [fpCount, fpPaths, fpEntry] at f0 f1 f2 f3 g5
    simp only [guessType, fileTypeFingerprints, List.foldl, pickFingerprint, fpName, fpEntry]
    split_ifs <;> first | rfl | (dsimp only at *; omega) | omega
  · have f0 := hle ⟨0, by omega⟩ (Fin.mk_lt_mk.mpr (by omega))
    have f1 := hle ⟨1, by omega⟩ (Fin.mk_lt_mk.mpr (by omega))
    have f2 := hle ⟨2, by omega⟩ (Fin.mk_lt_mk.mpr (by omega))
    have f3 := hle ⟨3, by omega⟩ (Fin.mk_lt_mk.mpr (by omega))
    have f4 := hle ⟨4, by omega⟩ (Fin.mk_lt_mk.mpr (by omega))
    simp only [fpCount, fpPaths, fpEntry] at f0 f1 f2 f3 f4
    simp only [guessType, fileTypeFingerprints, List.foldl, pickFingerprint, fpName, fpEntry]
    split_ifs <;> first | rfl | (dsimp only at *; omega) | omega

/-- Claim C1 (counterexample): on the document
`\x7b"total_count":0,"data":0,"banner":"x"\x7d` the jfrog fingerprints have
the strictly greatest count of resolvable (non-undefined) values — 2,
every other format at most 1 — yet `guessType` returns "nikto", because the
source counts truthy values and both jfrog values are falsy. -/
theorem guessType_defined_count_cex :
    definedCount c1CexDoc jfrogPaths = 2
    ∧ (∀ j : Fin 6, fpName j ≠ "jfrog" → definedCount c1CexDoc (fpPaths j) < 2)
    ∧ guessType c1CexDoc = "nikto" := by decide

/-- Claim C1 (amended): `guessType` returns the single format name whose
fingerprint paths have the strictly greatest count of truthy resolved
values in the input (safe nested-path lookup yields undefined, which is
falsy, rather than an error when an intermediate key is missing). -/
theorem guessType_truthy_strict_max (parsed : Json) (i : Fin 6)
    (hmax : ∀ j : Fin 6, j ≠ i → fpCount parsed j < fpCount parsed i) :
    guessType parsed = fpName i :=
  guessType_eq_of_lastMax parsed i
    (fun j hj => Nat.le_of_lt (hmax j (ne_of_lt hj)))
    (fun j hj => hmax j (ne_of_gt hj))

/-- Claim C1 (witness): a document matching all 3 of fortify's 3 paths
truthily and exactly 1 of snyk's 5 paths (and none of any other format)
yields "fortify". -/
theorem guessType_truthy_strict_max_witness :
    (∀ j : Fin 6, j ≠ ⟨0, by omega⟩ → fpCount fortifyDoc j < fpCount fortifyDoc ⟨0, by omega⟩)
    ∧ guessType fortifyDoc = "fortify" :=
  ⟨by decide, guessType_truthy_strict_max fortifyDoc ⟨0, by omega⟩ (by decide)⟩

/-- Claim C2 (counterexample): on the empty object every format achieves
the same match count 0, yet `guessType` returns "zap" — the LAST entry of
the table — not the earliest-declared format: `a > b ? a : b` hands ties to
the later entry. -/
theorem guessType_tie_cex :
    (∀ j : Fin 6, fpCount (Json.obj []) j = 0)
    ∧ guessType (Json.obj []) = "zap" := by decide

/-- Claim C2 (amended): when two formats achieve equal match counts that no
other format reaches, `guessType` returns the one declared LATER in the
table's iteration order (comparison uses strict "greater than", so the
later-registered entry replaces the accumulator on ties). -/
theorem guessType_tie_latest (parsed : Json) (i k : Fin 6) (hik : i < k)
    (heq : fpCount parsed i = fpCount parsed k)
    (hmax : ∀ j : Fin 6, j ≠ i → j ≠ k → fpCount parsed j < fpCount parsed k) :
    guessType parsed = fpName k :=
  guessType_eq_of_lastMax parsed k
    (fun j hj => by
      rcases eq_or_ne j i with rfl | hne
      · exact Nat.le_of_eq heq
      · exact Nat.le_of_lt (hmax j hne (ne_of_lt hj)))
    (fun j hj => hmax j (ne_of_gt (lt_trans hik hj)) (ne_of_gt hj))

/-- Claim C2 (witness): on a document where jfrog (position 1) and nikto
(position 2) both score 1 and everything else scores 0, the guess is
"nikto", the later of the two. -/
theorem guessType_tie_latest_witness :
    ((⟨1, by omega⟩ : Fin 6) < ⟨2, by omega⟩
      ∧ fpCount tieDoc ⟨1, by omega⟩ = fpCount tieDoc ⟨2, by omega⟩
      ∧ (∀ j : Fin 6, j ≠ ⟨1, by omega⟩ → j ≠ ⟨2, by omega⟩ →
          fpCount tieDoc j < fpCount tieDoc ⟨2, by omega⟩))
    ∧ guessType tieDoc = "nikto" :=
  ⟨⟨by decide, by decide, by decide⟩,
   guessType_tie_latest tieDoc ⟨1, by omega⟩ ⟨2, by omega⟩ (by decide) (by decide) (by decide)⟩

/-- Claim C3 (counterexample): the parsed document
`\x7b"controls":0,"sha256":"x"\x7d` contains both a `controls` and a
`sha256` property, yet `isHDF` returns false: the source tests
`Boolean(parsed.controls)`, and `0` is falsy. -/
theorem isHDF_present_not_truthy_cex :
    (safeProp hdfCexDoc "controls").isSome = true
    ∧ (safeProp hdfCexDoc "sha256").isSome = true
    ∧ isHDF (some hdfCexDoc) = false := by decide

/-- Claim C3 (amended): `isHDF` never throws — a parse failure yields false
— and on a successfully parsed value it returns true exactly when the value
has an array-typed `profiles` property, or has `controls` and `sha256`
properties whose values are both truthy.  (The property accesses inside the
source's `try` can themselves throw, on a parsed `null`; that exception is
also caught and yields false, which the total right-hand side reflects.) -/
theorem isHDF_eq_characterization (input : Option Json) :
    isHDF input =
      (match input with
       | none => false
       | some parsed =>
         isArrayOpt (safeProp parsed "profiles")
         || (truthyOpt (safeProp parsed "controls")
             && truthyOpt (safeProp parsed "sha256"))) := by
  match input with
  | none => rfl
  | some .null => rfl
  | some (.bool b) => rfl
  | some (.num n) => rfl
  | some (.str s) => rfl
  | some (.arr xs) => rfl
  | some (.obj fs) =>
    simp only [isHDF, isHDFBody, jsProp, safeProp, bind, Except.bind, pure, Except.pure]
    cases h1 : isArrayOpt (objGet fs "profiles") <;>
      cases h2 : truthyOpt (objGet fs "controls") <;>
        simp [h1, h2]

/-- Claim C4 (code bug, evaluation at the failing input): the text
"Policy Job Name Check ID" does NOT contain the fourth marker
"Result Status", yet with a non-JSON parse and no earlier branch matching,
the dispatcher still routes it to the DBProtect transformer: the fourth
check is written `data.indexOf('Result Status')` without `!== -1`, and the
absent-substring result `-1` is truthy. -/
theorem dbprotect_missing_marker :
    strContains "Policy Job Name Check ID" "Result Status" = false
    ∧ heuristicRoute "report.txt" "Policy Job Name Check ID" = some Route.dbprotect
    ∧ convertToHdf "report.txt" ⟨"Policy Job Name Check ID", none⟩ tagMappers
        = .ok ⟨some (.one (routeNat .dbprotect)), []⟩ :=
  ⟨by decide, by decide, by rfl⟩

/-- Claim C5 (counterexample): the text "hello" does not contain
"netsparker-enterprise" at all, yet the final branch routes it to the
Netsparker transformer: `indexOf` yields `-1`, which is truthy, so an
ABSENT substring is treated as a match — the claim's reading (present at a
truthy non-zero index; absence treated as no match) is the opposite. -/
theorem netsparker_absent_cex :
    strContains "hello" "netsparker-enterprise" = false
    ∧ heuristicRoute "a.txt" "hello" = some Route.netsparker
    ∧ convertToHdf "a.txt" ⟨"hello", none⟩ tagMappers
        = .ok ⟨some (.one (routeNat .netsparker)), []⟩ :=
  ⟨by decide, by decide, by rfl⟩

/-- Claim C5 (amended): when no earlier heuristic branch matches, the input
routes to the Netsparker transformer exactly when
`text.indexOf('netsparker-enterprise')` is not 0 — that is, when the
substring is absent (`-1` is truthy) or first occurs at a positive index;
only a match at position 0 falls through to the no-match failure. -/
theorem netsparker_route_iff (filename text : String)
    (h1 : jsEndsWith (lowerStr filename) ".nessus" = false)
    (h2 : strContains text xccdfMarker = false)
    (h3 : strContains (lowerStr filename) "xccdf" = false)
    (h4 : strContains text "issues burpVersion" = false)
    (h5 : strContains text "scoutsuite_results" = false)
    (h6 : (strContains text "Policy" && strContains text "Job Name"
        && strContains text "Check ID" && indexOfTruthy text "Result Status") = false) :
    (heuristicRoute filename text = some .netsparker
      ↔ jsIndexOf text "netsparker-enterprise" ≠ some 0) := by
  simp only [heuristicRoute, h1, h2, h3, h4, h5, h6]
  by_cases hq : jsIndexOf text "netsparker-enterprise" = some 0
  · simp [indexOfTruthy, hq]
  · simp [indexOfTruthy, hq]

/-- Claim C5 (witness): on the unparsable text "zzz" with no marker present
and neutral filename, the final-branch characterisation instantiates. -/
theorem netsparker_route_iff_witness :
    heuristicRoute "b.txt" "zzz" = some Route.netsparker
      ↔ jsIndexOf "zzz" "netsparker-enterprise" ≠ some 0 :=
  netsparker_route_iff "b.txt" "zzz" (by decide) (by decide) (by decide)
    (by decide) (by decide) (by decide)

/-- Claim C6: whenever the dispatcher matches no format (it returns
normally with an `undefined` result), exactly one failure message — the
"no fingerprints matched" snackbar notification — was emitted, no exception
escapes, and `loadFile` yields the empty identifier list with the
registration state untouched. -/
theorem no_match_single_failure (filename : String) (input : RawInput)
    (mappers : Route → Except String MapperOut) (conv : ConversionResult)
    (st : StoreState) (o : Outcome)
    (hhdf : isHDF input.parsed = false)
    (hconv : convertToHdf filename input mappers = .ok o)
    (hnone : o.result = none) :
    o.notifications = [noFingerprintMsg]
    ∧ loadFile filename input mappers conv st = (.ok [], st) := by
  have hmsg : o.notifications = [noFingerprintMsg] := by
    have hc := hconv
    unfold convertToHdf finalizeConvert at hc
    split at hc
    · split at hc
      · injection hc with h; subst h; simp at hnone
      · injection hc with h; subst h; rfl
      · exact Except.noConfusion hc
    · split at hc
      · injection hc with h; subst h; simp at hnone
      · injection hc with h; subst h; rfl
      · exact Except.noConfusion hc
  refine ⟨hmsg, ?_⟩
  simp only [loadFile, hhdf, hconv, hnone]
  rfl

/-- Claim C6 (witness): the unparsable text "netsparker-enterprise" (whose
only marker occurrence sits at index 0, which is falsy) exhausts every
branch: one notification, a normal return, and an empty identifier list. -/
theorem no_match_single_failure_witness :
    isHDF ((⟨"netsparker-enterprise", none⟩ : RawInput)).parsed = false
    ∧ convertToHdf "a.txt" ⟨"netsparker-enterprise", none⟩ tagMappers
        = .ok ⟨none, [noFingerprintMsg]⟩
    ∧ loadFile "a.txt" ⟨"netsparker-enterprise", none⟩ tagMappers ⟨none, none⟩ st0
        = (.ok [], st0) :=
  ⟨rfl, by rfl,
   (no_match_single_failure "a.txt" ⟨"netsparker-enterprise", none⟩ tagMappers
      ⟨none, none⟩ st0 ⟨none, [noFingerprintMsg]⟩ rfl (by rfl) rfl).2⟩

/-- Claim C7 (counterexample): on valid JSON guessed as "jfrog" whose
mapper throws, the dispatcher does NOT propagate the error: the throw
happens inside the `try`, is caught, and control is redirected into the
heuristic fallback, which here (absent substring, `-1` truthy) invokes the
Netsparker mapper and returns ITS result — a normal `.ok`, not the
mapper's error. -/
theorem mapper_error_swallowed_cex :
    jsonRoute (Json.obj [("total_count", .num 1), ("data", .arr [.num 1])]) = some Route.jfrog
    ∧ jfrogErrMappers .jfrog = .error "jfrog mapper failed"
    ∧ convertToHdf "a.json" jfrogInput jfrogErrMappers
        = .ok ⟨some (.one (routeNat .netsparker)), []⟩ :=
  ⟨by decide, by rfl, by rfl⟩

/-- Claim C7 (amended): a transformer failure propagates unchanged to the
caller only on the heuristic (text-detection) path; on the JSON path the
five dispatched mappers run inside the `try` block, so their throw is
caught and the dispatcher re-enters the heuristic fallback over the raw
text instead. -/
theorem mapper_error_behavior (filename : String) (input : RawInput)
    (mappers : Route → Except String MapperOut) (r : Route) (msg : String) :
    (input.parsed = none → heuristicRoute filename input.text = some r →
      mappers r = .error msg →
      convertToHdf filename input mappers = .error msg)
    ∧ (∀ parsed : Json, input.parsed = some parsed → jsonRoute parsed = some r →
      mappers r = .error msg →
      convertToHdf filename input mappers
        = finalizeConvert (catchPath filename input.text mappers)) := by
  constructor
  · intro hp hr hm
    simp [convertToHdf, tryPath, hp, catchPath, hr, hm, Except.map, finalizeConvert]
  · intro parsed hp hr hm
    simp [convertToHdf, tryPath, hp, hr, hm, Except.map]

/-- Claim C7 (witness): a `.nessus` file whose Nessus mapper throws lets
the error escape unchanged; a JSON input whose jfrog mapper throws lands in
the heuristic fallback. -/
theorem mapper_error_behavior_witness :
    convertToHdf "x.nessus" ⟨"abc", none⟩ nessusErrMappers = .error "nessus mapper failed"
    ∧ convertToHdf "a.json" jfrogInput jfrogErrMappers
        = finalizeConvert (catchPath "a.json" jfrogInput.text jfrogErrMappers) :=
  ⟨(mapper_error_behavior "x.nessus" ⟨"abc", none⟩ nessusErrMappers .nessus
      "nessus mapper failed").1 rfl (by decide) (by rfl),
   (mapper_error_behavior "a.json" jfrogInput jfrogErrMappers .jfrog
      "jfrog mapper failed").2
     (Json.obj [("total_count", .num 1), ("data", .arr [.num 1])]) rfl (by decide) (by rfl)⟩

/-- Claim C10: a parsed JSON input whose guessed type is "fortify" is
dispatched to no transformer: the JSON branch handles only jfrog, zap,
nikto, sarif and snyk, so control falls through to the single
"no fingerprints matched" failure with an `undefined` result. -/
theorem fortify_guess_no_dispatch (filename : String) (input : RawInput)
    (mappers : Route → Except String MapperOut) (parsed : Json)
    (hp : input.parsed = some parsed)
    (hg : guessType parsed = "fortify") :
    convertToHdf filename input mappers = .ok ⟨none, [noFingerprintMsg]⟩ := by
  have hroute : jsonRoute parsed = none := by simp [jsonRoute, hg]
  simp [convertToHdf, tryPath, hp, hroute, finalizeConvert]

/-- Claim C10 (witness): `\x7b"FVDL":"v"\x7d` wins the guess as "fortify"
and is routed to no transformer, producing only the failure outcome. -/
theorem fortify_guess_no_dispatch_witness :
    guessType fortifyDoc2 = "fortify"
    ∧ convertToHdf "f.json" fortifyInput tagMappers = .ok ⟨none, [noFingerprintMsg]⟩ :=
  ⟨by decide, fortify_guess_no_dispatch "f.json" fortifyInput tagMappers fortifyDoc2 rfl (by decide)⟩

/-- Claim C8: when the multi-version parser recognises the text as neither
an execution (`1_0_ExecJson` absent) nor a profile (`1_0_ProfileJson`
absent), `loadText` throws the user-facing "Couldn\x27t parse data" error and
the registration/selection state is returned exactly as it was: nothing is
registered and nothing is marked selected. -/
theorem loadText_unrecognized_throws (st : StoreState) :
    loadText ⟨none, none⟩ st = (.error parseErrorMsg, st) := rfl

/-- Claim C9: on every successful ingestion — the execution and profile
branches of `loadText`, and `loadExecJson` (modelled by `ingestExecution`
applied to the caller's execution object) — the normalized content object
is frozen in the post-registration state, the containing wrapper is
registered, and every subsequent property assignment to the frozen content
object leaves the heap unchanged (fails or is a no-op), so updating
content requires producing a new object. -/
theorem content_frozen_before_registration (filename : String) (e p d : Nat)
    (s : AppState) :
    (((loadTextHeap filename ⟨some e, none⟩ s).2.heap.getObj
        (s.heap.nextAddr + 1)).map JsObject.frozen = some true
      ∧ (loadTextHeap filename ⟨some e, none⟩ s).2.executions
          = s.executions ++ [s.heap.nextAddr]
      ∧ ∀ k v, setField (loadTextHeap filename ⟨some e, none⟩ s).2.heap
          (s.heap.nextAddr + 1) k v
          = (loadTextHeap filename ⟨some e, none⟩ s).2.heap)
    ∧ (((loadTextHeap filename ⟨none, some p⟩ s).2.heap.getObj
        (s.heap.nextAddr + 1)).map JsObject.frozen = some true
      ∧ (loadTextHeap filename ⟨none, some p⟩ s).2.profiles
          = s.profiles ++ [s.heap.nextAddr]
      ∧ ∀ k v, setField (loadTextHeap filename ⟨none, some p⟩ s).2.heap
          (s.heap.nextAddr + 1) k v
          = (loadTextHeap filename ⟨none, some p⟩ s).2.heap)
    ∧ (((ingestExecution filename d s).2.heap.getObj
        (s.heap.nextAddr + 1)).map JsObject.frozen = some true
      ∧ (ingestExecution filename d s).2.executions
          = s.executions ++ [s.heap.nextAddr]
      ∧ ∀ k v, setField (ingestExecution filename d s).2.heap
          (s.heap.nextAddr + 1) k v
          = (ingestExecution filename d s).2.heap) := by
  refine ⟨⟨?_, ?_, ?_⟩, ⟨?_, ?_, ?_⟩, ⟨?_, ?_, ?_⟩⟩ <;>
    simp [loadTextHeap, ingestExecution, ingestProfile, Heap.alloc, setField,
      Heap.getObj, Heap.putObj, freezeObj, setAssoc, List.find?]
